import Mathlib

set_option autoImplicit false

namespace Sovo

/-! Shallow embedding of the volume-booster orchestration core.
JS numbers are modelled as rationals, BN / BigInt values as integers or
naturals, and every Math.random draw is an explicit parameter. -/

/-- LAMPORTS_PER_SOL from src/constants.js. -/
def lamportsPerSol : ℕ := 1000000000

/-- MIN_MEME_TOKENS from src/constants.js. -/
def minMemeTokens : ℕ := 1000000

/-- MAX_COOLDOWN_AGE_MS from src/constants.js: 24 hours in milliseconds. -/
def maxCooldownAgeMs : ℤ := 86400000

/-- The fields of ConfigManager (src/src/utils.js) that the verified
components read. Defaults are the ConfigManager defaults after validation:
percentage options are stored divided by 100 (see validatePercentage). -/
structure Config where
  enableCircuitBreaker : Bool := true
  maxConsecutiveFailures : ℕ := 10
  maxFailureRate : ℚ := 1/2
  failureRateWindow : ℕ := 10
  emergencyStopLoss : ℚ := 3/10
  twapParts : ℕ := 5
  partialSellEnabled : Bool := true
  partialSellMin : ℚ := 22/100
  partialSellMax : ℚ := 68/100
  rampCycles : ℚ := 30
  batchSize : ℕ := 100
  shuffleWallets : Bool := true
  minWalletCooldownMs : ℚ := 300000
  maxWalletCooldownMs : ℚ := 1800000
deriving DecidableEq

/-- ConfigManager.validateNumber (src/src/utils.js lines 157-163): a missing
value takes the default, a value outside the bounds is a startup error
(modelled as none). -/
def validateNumber (value : Option ℚ) (lo hi defaultValue : ℚ) : Option ℚ :=
  let num := value.getD defaultValue
  if num < lo ∨ num > hi then none else some num

/-- ConfigManager.validatePercentage (src/src/utils.js lines 170-173):
validates the environment value in 0..100 and then divides it by 100, so the
stored configuration field is a fraction of 1 while the environment variable
is a percentage on the 0..100 scale. -/
def validatePercentage (value : Option ℚ) (defaultValue : ℚ) : Option ℚ :=
  (validateNumber value 0 100 defaultValue).map (fun pct => pct / 100)

/-- The mutable state of CircuitBreaker (src/src/utils.js lines 299-311).
initialSinkBalance is the BigInt snapshot locked once at startup, 0 before. -/
structure CircuitBreaker where
  consecutiveFailures : ℕ
  recentTrades : List Bool
  initialSinkBalance : ℤ
  checkCounter : ℕ
deriving DecidableEq

/-- The CircuitBreaker constructor (src/src/utils.js lines 304-311). -/
def CircuitBreaker.start : CircuitBreaker :=
  { consecutiveFailures := 0, recentTrades := [], initialSinkBalance := 0, checkCounter := 0 }

/-- CircuitBreaker.recordTradeResult (src/src/utils.js lines 317-330): no-op
when the breaker is disabled; otherwise push the outcome, shift the oldest
entry out when the window has overflowed, and reset or bump the consecutive
failure counter. -/
def recordTradeResult (cfg : Config) (cb : CircuitBreaker) (success : Bool) : CircuitBreaker :=
  if cfg.enableCircuitBreaker = false then cb
  else
    let pushed := cb.recentTrades ++ [success]
    let window := if cfg.failureRateWindow < pushed.length then pushed.tail else pushed
    { cb with
      recentTrades := window
      consecutiveFailures := if success then 0 else cb.consecutiveFailures + 1 }

/-- CircuitBreaker.checkCircuitBreakers (src/src/utils.js lines 338-377).
sinkPresent is whether a sink keypair is configured and currentBalance the
balance the connection reports for it. The loss is the BigInt expression
(initial - current) * 100 / initial, truncated integer division. Returns the
tripped flag together with the updated state (the checkCounter increment
happens only after the first two checks pass). -/
def checkCircuitBreakers (cfg : Config) (cb : CircuitBreaker)
    (sinkPresent : Bool) (currentBalance : ℤ) : Bool × CircuitBreaker :=
  if cfg.enableCircuitBreaker = false then (false, cb)
  else if cfg.maxConsecutiveFailures ≤ cb.consecutiveFailures then (true, cb)
  else if cfg.failureRateWindow ≤ cb.recentTrades.length ∧
      ((cb.recentTrades.countP (fun r => !r) : ℚ) / (cb.recentTrades.length : ℚ)) * 100
        > cfg.maxFailureRate then (true, cb)
  else
    let cb2 := { cb with checkCounter := cb.checkCounter + 1 }
    if sinkPresent = true ∧ 0 < cb2.initialSinkBalance ∧ cb2.checkCounter % 5 = 0 ∧
        ((((cb2.initialSinkBalance - currentBalance) * 100).tdiv cb2.initialSinkBalance : ℤ) : ℚ)
          > cfg.emergencyStopLoss then (true, cb2)
    else (false, cb2)

/-- The trip condition as claim C1 words it, with the failure-rate and loss
thresholds read on the 0..100 percentage scale of the configuration surface
(the environment variables MAX_FAILURE_RATE_PCT and EMERGENCY_STOP_LOSS_PCT). -/
def claimOneTrip (maxConsecutiveFailures windowSize : ℕ) (maxFailureRatePct lossPct : ℚ)
    (cb : CircuitBreaker) (snapshotSet fifthCheck : Bool) (currentBalance : ℤ) : Prop :=
  maxConsecutiveFailures ≤ cb.consecutiveFailures ∨
  (cb.recentTrades.length = windowSize ∧
    ((cb.recentTrades.countP (fun r => !r) : ℚ) / (windowSize : ℚ)) * 100 > maxFailureRatePct) ∨
  (fifthCheck = true ∧ snapshotSet = true ∧
    ((cb.initialSinkBalance : ℚ) - (currentBalance : ℚ)) * 100 / (cb.initialSinkBalance : ℚ)
      > lossPct)

/-- A configuration with MAX_FAILURE_RATE_PCT = 50, FAILURE_RATE_WINDOW = 5 and
EMERGENCY_STOP_LOSS_PCT = 30 as ConfigManager stores it. -/
def cfgUnits : Config :=
  { maxFailureRate := 1/2, failureRateWindow := 5, emergencyStopLoss := 3/10 }

/-- A breaker state whose full 5-wide window holds one failure and four
successes: a 20 percent failure rate. -/
def cbUnits : CircuitBreaker :=
  { consecutiveFailures := 0, recentTrades := [false, true, true, true, true],
    initialSinkBalance := 0, checkCounter := 0 }

/-- TradingEngine.twapSwap (src/src/trading/TradingEngine.js lines 206-210):
partAmount is the BN integer quotient, the remainder the BN mod, and the parts
array is twapParts copies of partAmount with the remainder added to index 0. -/
def twapSplit (twapParts amount : ℕ) : List ℕ :=
  let partAmount := amount / twapParts
  let remainder := amount % twapParts
  match List.replicate twapParts partAmount with
  | [] => []
  | p :: rest => (p + remainder) :: rest

/-- TradingEngine.performSwap line 335: the side-specific TWAP threshold test.
For a buy the BN amount is first integer-divided by LAMPORTS_PER_SOL, so the
JS comparison of that whole number with 0.005 holds exactly when the quotient
is at least 1; for a sell the raw token amount is compared with 1000000. -/
def useTwap (isBuy : Bool) (finalAmount : ℕ) : Bool :=
  if isBuy then decide ((5 : ℚ)/1000 < ((finalAmount / lamportsPerSol : ℕ) : ℚ))
  else decide ((1000000 : ℚ) < (finalAmount : ℚ))

/-- What performSwap does at lines 329-340 once the amount is final: skip as a
reported success, or route the amount to twapSwap or performSingleSwap. -/
inductive SwapDecision where
  | holdSkip
  | twap (parts : List ℕ)
  | single (amount : ℕ)
deriving DecidableEq

/-- TradingEngine.performSwap lines 335-340: the routing between twapSwap and
performSingleSwap. -/
def performSwapDispatch (cfg : Config) (isBuy : Bool) (finalAmount : ℕ) : SwapDecision :=
  if useTwap isBuy finalAmount = true
  then SwapDecision.twap (twapSplit cfg.twapParts finalAmount)
  else SwapDecision.single finalAmount

/-- TradingEngine.performSwap lines 329-340: after the market-condition check
passes, a hodler buy with Math.random() below 0.3 returns true without any
delegation; otherwise the amount is routed as performSwapDispatch does. -/
def performSwapAfterChecks (cfg : Config) (personality : String) (isBuy : Bool)
    (hodlerDraw : ℚ) (finalAmount : ℕ) : SwapDecision :=
  if personality = "hodler" ∧ isBuy = true ∧ hodlerDraw < 3/10 then SwapDecision.holdSkip
  else performSwapDispatch cfg isBuy finalAmount

/-- The boolean performSwap returns for the decision, given the outcome the
execution path would produce: the hodler skip is reported as true. -/
def performSwapResult (cfg : Config) (personality : String) (isBuy : Bool)
    (hodlerDraw : ℚ) (finalAmount : ℕ) (execOutcome : SwapDecision → Bool) : Bool :=
  match performSwapAfterChecks cfg personality isBuy hodlerDraw finalAmount with
  | SwapDecision.holdSkip => true
  | d => execOutcome d

/-- The TradingEngine constructor (lines 27-38) sets no isRunning field and no
other statement of the repository assigns one to the engine, so the read of
this.isRunning in twapSwap yields undefined, which is falsy. -/
def engineIsRunning : Bool := false

/-- TradingEngine.twapSwap lines 212-232: the execution loop over the parts.
adapt i p models the getAdaptiveAmount result for part index i, outcome i p the
performSingleSwap result for that part. The loop breaks when isRunning is
falsy, skips a part adapted to zero, sets anySuccess on a success and breaks
after the first failed part. Returns the parts actually delegated (with their
index) and the anySuccess flag that twapSwap returns. -/
def twapLoop (isRunning : Bool) (adapt : ℕ → ℕ → ℕ) (outcome : ℕ → ℕ → Bool) :
    List ℕ → ℕ → List (ℕ × ℕ) → Bool → List (ℕ × ℕ) × Bool
  | [], _, executed, anySuccess => (executed, anySuccess)
  | p :: rest, i, executed, anySuccess =>
    if isRunning = false then (executed, anySuccess)
    else
      let part := adapt i p
      if part = 0 then twapLoop isRunning adapt outcome rest (i + 1) executed anySuccess
      else
        let s := outcome i part
        if s = false then (executed ++ [(i, part)], anySuccess || s)
        else twapLoop isRunning adapt outcome rest (i + 1) (executed ++ [(i, part)]) (anySuccess || s)

/-- TradingEngine.twapSwap entry: split the amount and run the part loop. -/
def twapSwapExec (isRunning : Bool) (twapParts amount : ℕ)
    (adapt : ℕ → ℕ → ℕ) (outcome : ℕ → ℕ → Bool) : List (ℕ × ℕ) × Bool :=
  twapLoop isRunning adapt outcome (twapSplit twapParts amount) 0 [] false

/-- The trace of one performSingleSwap call: the returned boolean (none when
the last error propagates uncaught), the number of service attempts made, and
the backoff sleeps in milliseconds between consecutive attempts. -/
structure SwapAttemptTrace where
  result : Option Bool
  attemptsUsed : ℕ
  backoffsMs : List ℕ
deriving DecidableEq

/-- TradingEngine.performSingleSwap lines 242-288, as a loop over the remaining
attempts out of maxRetries = 3. oracle attempt is some r when the service call
returns (r the truthiness of the signature) and none when it throws; remaining
counts the attempts the for-loop still admits, so remaining = 0 after the loop
(unreachable for maxRetries at least 1, modelled as the undefined JS return)
and remaining = 1 is the final attempt whose error is rethrown. Between
attempts the code sleeps 2 to the power attempt, in seconds (here ms). -/
def singleSwapGo (oracle : ℕ → Option Bool) : ℕ → ℕ → List ℕ → SwapAttemptTrace
  | 0, attempt, backoffs => ⟨some false, attempt, backoffs⟩
  | remaining + 1, attempt, backoffs =>
    match oracle attempt with
    | some sig => ⟨some sig, attempt + 1, backoffs⟩
    | none =>
      if remaining = 0 then ⟨none, attempt + 1, backoffs⟩
      else singleSwapGo oracle remaining (attempt + 1) (backoffs ++ [2 ^ attempt * 1000])

/-- TradingEngine.performSingleSwap with maxRetries = 3 starting at attempt 0. -/
def performSingleSwap (oracle : ℕ → Option Bool) : SwapAttemptTrace :=
  singleSwapGo oracle 3 0 []

/-- TradingEngine.performSwap lines 300-308: the partial-sell amount. pct is
partialSellMin + Math.random() * (partialSellMax - partialSellMin) with r the
Math.random() draw, pctBigInt is Math.floor(pct * 100) as a BN, and the sell
amount is the BN product currentTokens * pctBigInt integer-divided by 100
(truncated division; both operands are nonnegative on every reachable input). -/
def partialSellAmount (partialSellMin partialSellMax r : ℚ) (currentTokens : ℕ) : ℤ :=
  let pct := partialSellMin + r * (partialSellMax - partialSellMin)
  let pctBigInt : ℤ := ⌊pct * 100⌋
  ((currentTokens : ℤ) * pctBigInt).tdiv 100

/-- TradingEngine.performSwap lines 311-314: rampFactor is
min(1, (cycleCount + 1) / rampCycles), quantized through
BN(Math.floor(rampFactor * 100)), and the final amount is the adjusted BN
amount times that quantized factor, integer-divided by 100. cycleCount here is
the field this.cycleCount of the TradingEngine. -/
def rampFinalAmount (rampCycles : ℚ) (cycleCount : ℕ) (adjustedAmount : ℕ) : ℕ :=
  let rampFactor : ℚ := min 1 (((cycleCount : ℚ) + 1) / rampCycles)
  adjustedAmount * (⌊rampFactor * 100⌋).toNat / 100

/-- The two cycle counters: VolumeBoosterBot.cycleCount (constructor line 42)
and TradingEngine.cycleCount (constructor line 37), both starting at 0. -/
structure OrchCounters where
  botCycleCount : ℕ
  engineCycleCount : ℕ
deriving DecidableEq

/-- The counters at process start. -/
def orchCountersInit : OrchCounters :=
  { botCycleCount := 0, engineCycleCount := 0 }

/-- One pass of VolumeBoosterBot.runLoop (line 140): the bot increments its own
cycleCount; no statement in the repository assigns tradingEngine.cycleCount,
so the engine counter that performSwap reads is unchanged. -/
def runLoopCountStep (c : OrchCounters) : OrchCounters :=
  { c with botCycleCount := c.botCycleCount + 1 }

/-- One record of walletData as WalletManager keeps it (credential material is
not needed by any verified property). -/
structure WalletRecord where
  pubkey : String
  name : String
deriving DecidableEq

/-- The WalletManager state the selection path touches: the wallet list, the
cooldown map, the trade-count map and the activeWallets field the constructor
starts empty. The JS Maps are association lists keyed by pubkey. -/
structure WMState where
  walletData : List WalletRecord
  walletCooldowns : List (String × ℤ)
  walletTradeCount : List (String × ℕ)
  activeWallets : List WalletRecord
deriving DecidableEq

/-- WalletManager.cleanupOldCooldowns (src/unnamed/part_002 lines 229-243):
delete cooldown entries older than MAX_COOLDOWN_AGE_MS; capCounts models the
1 percent random draw under which very high trade counts are capped at 1000. -/
def cleanupOldCooldowns (now : ℤ) (capCounts : Bool) (s : WMState) : WMState :=
  { s with
    walletCooldowns := s.walletCooldowns.filter (fun e => decide (now - e.2 ≤ maxCooldownAgeMs))
    walletTradeCount :=
      if capCounts = true then
        s.walletTradeCount.map (fun e => if 1000 < e.2 then (e.1, 1000) else e)
      else s.walletTradeCount }

/-- WalletManager.getWalletCooldown (src/unnamed/part_002 lines 264-269):
multiplier 1 + (tradeCount mod 5) * 0.2 on a base drawn between the two
configured cooldown bounds (rand is the Math.random() draw), floored. -/
def getWalletCooldown (cfg : Config) (s : WMState) (rand : ℚ) (walletKey : String) : ℤ :=
  let tradeCount := (s.walletTradeCount.lookup walletKey).getD 0
  let cooldownMultiplier : ℚ := 1 + ((tradeCount % 5 : ℕ) : ℚ) * (2/10)
  let baseCooldown : ℚ :=
    cfg.minWalletCooldownMs + rand * (cfg.maxWalletCooldownMs - cfg.minWalletCooldownMs)
  ⌊baseCooldown * cooldownMultiplier⌋

/-- The Fisher-Yates swap of positions i and j (shuffleArray line 254). -/
def listSwap {α : Type} (l : List α) (i j : ℕ) : List α :=
  match l.get? i, l.get? j with
  | some x, some y => (l.set i y).set j x
  | _, _ => l

/-- WalletManager.shuffleArray lines 250-257: the loop from i = length - 1 down
to 1; draws i mod (i + 1) models the random index Math.floor(rand * (i + 1))
for step i. -/
def shuffleGo {α : Type} (draws : ℕ → ℕ) (l : List α) : ℕ → List α
  | 0 => l
  | i + 1 => shuffleGo draws (listSwap l (i + 1) (draws (i + 1) % (i + 2))) i

/-- WalletManager.shuffleArray entry point. -/
def shuffleArray {α : Type} (draws : ℕ → ℕ) (l : List α) : List α :=
  shuffleGo draws l (l.length - 1)

/-- WalletManager.loadActiveBatch (src/unnamed/part_002 lines 199-223): clean
old cooldowns, filter the wallets whose cooldown has elapsed (cooldownDraw k is
the Math.random() draw getWalletCooldown consumes for wallet k), and when some
are ready shuffle (if configured), truncate to batchSize and store the batch in
activeWallets. When none is ready the method returns the empty list WITHOUT
assigning activeWallets. Returns the new state and the return value. -/
def loadActiveBatch (cfg : Config) (now : ℤ) (capCounts : Bool)
    (cooldownDraw : String → ℚ) (shuffleDraws : ℕ → ℕ) (s : WMState) :
    WMState × List WalletRecord :=
  let s1 := cleanupOldCooldowns now capCounts s
  let ready := s1.walletData.filter (fun w =>
    decide (getWalletCooldown cfg s1 (cooldownDraw w.pubkey) w.pubkey
      ≤ now - ((s1.walletCooldowns.lookup w.pubkey).getD 0)))
  if ready.length = 0 then (s1, [])
  else
    let shuffled := if cfg.shuffleWallets = true then shuffleArray shuffleDraws ready else ready
    let selected := shuffled.take cfg.batchSize
    ({ s1 with activeWallets := selected }, selected)

/-- What one pass of the orchestrator loop does with the batch. -/
inductive CycleAction where
  | backoff
  | processBatch (batch : List WalletRecord)
deriving DecidableEq

/-- VolumeBoosterBot.runLoop lines 130-137: the loop awaits loadActiveBatch,
DISCARDS its return value, reads walletManager.activeWallets instead, and only
when that field is empty sleeps a fixed 30000 ms and re-checks; otherwise it
processes the batch it read. -/
def runLoopBatchStep (cfg : Config) (now : ℤ) (capCounts : Bool)
    (cooldownDraw : String → ℚ) (shuffleDraws : ℕ → ℕ) (s : WMState) :
    WMState × CycleAction :=
  let s1 := (loadActiveBatch cfg now capCounts cooldownDraw shuffleDraws s).1
  if s1.activeWallets.length = 0 then (s1, CycleAction.backoff)
  else (s1, CycleAction.processBatch s1.activeWallets)

/-- A wallet for the C7 scenario. -/
def walletW1 : WalletRecord := { pubkey := "w1", name := "Wallet1" }

/-- A configuration with batch size 1, shuffling off and both cooldown bounds
at 300000 ms. -/
def cfgStale : Config :=
  { batchSize := 1, shuffleWallets := false, maxWalletCooldownMs := 300000 }

/-- A manager state after one successful earlier batch: wallet w1 was selected
(activeWallets = [w1]) and marked used at time 0, so it is on cooldown. -/
def stateStale : WMState :=
  { walletData := [walletW1], walletCooldowns := [("w1", 0)],
    walletTradeCount := [], activeWallets := [walletW1] }

/-- The default configuration (every environment variable left unset). -/
def cfgDefault : Config := {}

/-! Theorems. -/

/-- The window recordTradeResult leaves behind, written with the overflow test
spelled out on the pushed length. -/
theorem recordTradeResult_recentTrades (cfg : Config) (cb : CircuitBreaker) (s : Bool)
    (he : cfg.enableCircuitBreaker = true) :
    (recordTradeResult cfg cb s).recentTrades =
      if cfg.failureRateWindow < cb.recentTrades.length + 1
      then (cb.recentTrades ++ [s]).tail else cb.recentTrades ++ [s] := by
  simp [recordTradeResult, he]

/-- Recording an outcome can not push the window past the configured capacity. -/
theorem recordTradeResult_length_le (cfg : Config) (cb : CircuitBreaker) (s : Bool)
    (h : cb.recentTrades.length ≤ cfg.failureRateWindow) :
    (recordTradeResult cfg cb s).recentTrades.length ≤ cfg.failureRateWindow := by
  by_cases he : cfg.enableCircuitBreaker = true
  · rw [recordTradeResult_recentTrades cfg cb s he]
    by_cases hover : cfg.failureRateWindow < cb.recentTrades.length + 1
    · rw [if_pos hover, List.length_tail]
      simp only [List.length_append, List.length_cons, List.length_nil]
      omega
    · rw [if_neg hover]
      simp only [List.length_append, List.length_cons, List.length_nil]
      omega
  · have he2 : cfg.enableCircuitBreaker = false := by
      cases hb : cfg.enableCircuitBreaker
      · rfl
      · exact absurd hb he
    simpa [recordTradeResult, he2] using h

/-- Starting from the constructor state, any sequence of recorded outcomes
leaves the window within the configured capacity. -/
theorem foldl_recordTradeResult_length_le (cfg : Config) (seq : List Bool)
    (cb : CircuitBreaker) (h : cb.recentTrades.length ≤ cfg.failureRateWindow) :
    (seq.foldl (recordTradeResult cfg) cb).recentTrades.length ≤ cfg.failureRateWindow := by
  induction seq generalizing cb with
  | nil => exact h
  | cons s rest ih => exact ih _ (recordTradeResult_length_le cfg cb s h)

/-- C1. Claimed: with the breaker enabled, a cycle-completion check trips if and
only if consecutive failures reach the maximum, or the full-window failure-rate
percentage strictly exceeds the configured maximum failure-rate percentage, or
(on every 5th check with a snapshot set) the percentage loss strictly exceeds
the configured loss percentage. The code contradicts this: validatePercentage
stores MAX_FAILURE_RATE_PCT = 50 as the fraction 1/2, and checkCircuitBreakers
compares the failure rate on the 0..100 scale against that stored fraction, so
a full window at a 20 percent failure rate trips although the configured
maximum is 50 percent. -/
theorem C1_failure_rate_unit_mismatch :
    validatePercentage (some 50) 50 = some cfgUnits.maxFailureRate ∧
    cfgUnits.failureRateWindow = cbUnits.recentTrades.length ∧
    ((cbUnits.recentTrades.countP (fun r => !r) : ℚ) / (cbUnits.recentTrades.length : ℚ)) * 100
      = 20 ∧
    (checkCircuitBreakers cfgUnits cbUnits false 0).1 = true ∧
    ¬ claimOneTrip cfgUnits.maxConsecutiveFailures cfgUnits.failureRateWindow 50 30
        cbUnits false false 0 := by
  refine ⟨by norm_num [validatePercentage, validateNumber, cfgUnits], rfl,
    by norm_num [cbUnits], ?_, ?_⟩
  · norm_num [checkCircuitBreakers, cfgUnits, cbUnits]
  · norm_num [claimOneTrip, cfgUnits, cbUnits]

/-- C2. With the breaker enabled: a success resets consecutiveFailures to 0, a
failure increments it, every outcome is appended to the window with the oldest
entry evicted exactly when the window is full, and from the constructor state
no sequence of recorded outcomes pushes the window length past the configured
failureRateWindow capacity (the validated range of FAILURE_RATE_WINDOW makes
the capacity at least 1). -/
theorem C2_record_outcome (cfg : Config) (cb : CircuitBreaker) (s : Bool) (seq : List Bool)
    (henable : cfg.enableCircuitBreaker = true)
    (hwin : 1 ≤ cfg.failureRateWindow)
    (hlen : cb.recentTrades.length ≤ cfg.failureRateWindow) :
    (recordTradeResult cfg cb true).consecutiveFailures = 0 ∧
    (recordTradeResult cfg cb false).consecutiveFailures = cb.consecutiveFailures + 1 ∧
    (cb.recentTrades.length = cfg.failureRateWindow →
      (recordTradeResult cfg cb s).recentTrades = cb.recentTrades.tail ++ [s]) ∧
    (cb.recentTrades.length < cfg.failureRateWindow →
      (recordTradeResult cfg cb s).recentTrades = cb.recentTrades ++ [s]) ∧
    (recordTradeResult cfg cb s).recentTrades.length ≤ cfg.failureRateWindow ∧
    (seq.foldl (recordTradeResult cfg) CircuitBreaker.start).recentTrades.length
      ≤ cfg.failureRateWindow := by
  have he : ¬ cfg.enableCircuitBreaker = false := by simp [henable]
  refine ⟨?_, ?_, ?_, ?_, recordTradeResult_length_le cfg cb s hlen,
    foldl_recordTradeResult_length_le cfg seq CircuitBreaker.start (by simp [CircuitBreaker.start])⟩
  · simp [recordTradeResult, he]
  · simp [recordTradeResult, he]
  · intro hfull
    have hover : cfg.failureRateWindow < cb.recentTrades.length + 1 := by omega
    have hne : cb.recentTrades ≠ [] := by
      intro hnil
      rw [hnil] at hfull
      simp at hfull
      omega
    rw [recordTradeResult_recentTrades cfg cb s henable, if_pos hover]
    exact List.tail_append_of_ne_nil hne
  · intro hlt
    have hover : ¬ cfg.failureRateWindow < cb.recentTrades.length + 1 := by omega
    rw [recordTradeResult_recentTrades cfg cb s henable, if_neg hover]

/-- Witness for C2 at the default configuration (window capacity 10). -/
theorem C2_record_outcome_witness :
    cfgDefault.enableCircuitBreaker = true ∧ 1 ≤ cfgDefault.failureRateWindow ∧
    CircuitBreaker.start.recentTrades.length ≤ cfgDefault.failureRateWindow ∧
    ((recordTradeResult cfgDefault CircuitBreaker.start true).consecutiveFailures = 0 ∧
    (recordTradeResult cfgDefault CircuitBreaker.start false).consecutiveFailures =
      CircuitBreaker.start.consecutiveFailures + 1 ∧
    (CircuitBreaker.start.recentTrades.length = cfgDefault.failureRateWindow →
      (recordTradeResult cfgDefault CircuitBreaker.start true).recentTrades =
        CircuitBreaker.start.recentTrades.tail ++ [true]) ∧
    (CircuitBreaker.start.recentTrades.length < cfgDefault.failureRateWindow →
      (recordTradeResult cfgDefault CircuitBreaker.start true).recentTrades =
        CircuitBreaker.start.recentTrades ++ [true]) ∧
    (recordTradeResult cfgDefault CircuitBreaker.start true).recentTrades.length
      ≤ cfgDefault.failureRateWindow ∧
    (([true, false, false, true]).foldl (recordTradeResult cfgDefault)
        CircuitBreaker.start).recentTrades.length ≤ cfgDefault.failureRateWindow) :=
  ⟨rfl, by norm_num [cfgDefault], by simp [CircuitBreaker.start, cfgDefault],
    C2_record_outcome cfgDefault CircuitBreaker.start true [true, false, false, true]
      rfl (by norm_num [cfgDefault]) (by simp [CircuitBreaker.start, cfgDefault])⟩

/-- C3. Above the side-specific split threshold, twapSwap splits the amount
into exactly twapParts shares whose sum is the amount: every share is the
integer quotient, except the first which also absorbs the remainder. At or
below the threshold, performSwap routes the amount to exactly one single
performSingleSwap call. -/
theorem C3_twap_split (cfg : Config) (isBuy : Bool) (amount : ℕ)
    (hp : 1 ≤ cfg.twapParts) :
    (useTwap isBuy amount = true →
      performSwapDispatch cfg isBuy amount =
        SwapDecision.twap (twapSplit cfg.twapParts amount) ∧
      (twapSplit cfg.twapParts amount).length = cfg.twapParts ∧
      (twapSplit cfg.twapParts amount).sum = amount ∧
      (twapSplit cfg.twapParts amount).head? =
        some (amount / cfg.twapParts + amount % cfg.twapParts) ∧
      ∀ x ∈ (twapSplit cfg.twapParts amount).tail, x = amount / cfg.twapParts) ∧
    (useTwap isBuy amount = false →
      performSwapDispatch cfg isBuy amount = SwapDecision.single amount) := by
  obtain ⟨k, hk⟩ : ∃ k, cfg.twapParts = k + 1 := ⟨cfg.twapParts - 1, by omega⟩
  have hsplit : twapSplit cfg.twapParts amount =
      (amount / cfg.twapParts + amount % cfg.twapParts)
        :: List.replicate k (amount / cfg.twapParts) := by
    rw [hk]
    simp [twapSplit, List.replicate_succ]
  constructor
  · intro hu
    refine ⟨by simp [performSwapDispatch, hu], ?_, ?_, ?_, ?_⟩
    · rw [hsplit]
      simp [hk]
    · rw [hsplit]
      simp only [List.sum_cons, List.sum_replicate, smul_eq_mul]

      have hmod := Nat.div_add_mod amount (k + 1)
      rw [hk]
      calc amount / (k + 1) + amount % (k + 1) + k * (amount / (k + 1))
          = (k + 1) * (amount / (k + 1)) + amount % (k + 1) := by ring
        _ = amount := hmod
    · rw [hsplit, List.head?_cons]
    · rw [hsplit]
      intro x hx
      exact List.eq_of_mem_replicate (by simpa using hx)
  · intro hu
    simp [performSwapDispatch, hu]

/-- Witness for C3: a sell of 1000103 raw tokens is above the sell threshold
and splits into 5 shares; the 103-into-5 shape of the spec example is
[23, 20, 20, 20, 20]. -/
theorem C3_twap_split_witness :
    1 ≤ cfgDefault.twapParts ∧
    useTwap false 1000103 = true ∧
    twapSplit cfgDefault.twapParts 1000103 = [200023, 200020, 200020, 200020, 200020] ∧
    twapSplit 5 103 = [23, 20, 20, 20, 20] ∧
    ((useTwap false 1000103 = true →
      performSwapDispatch cfgDefault false 1000103 =
        SwapDecision.twap (twapSplit cfgDefault.twapParts 1000103) ∧
      (twapSplit cfgDefault.twapParts 1000103).length = cfgDefault.twapParts ∧
      (twapSplit cfgDefault.twapParts 1000103).sum = 1000103 ∧
      (twapSplit cfgDefault.twapParts 1000103).head? =
        some (1000103 / cfgDefault.twapParts + 1000103 % cfgDefault.twapParts) ∧
      ∀ x ∈ (twapSplit cfgDefault.twapParts 1000103).tail,
        x = 1000103 / cfgDefault.twapParts) ∧
    (useTwap false 1000103 = false →
      performSwapDispatch cfgDefault false 1000103 = SwapDecision.single 1000103)) :=
  ⟨by norm_num [cfgDefault], by norm_num [useTwap], by decide, by decide,
    C3_twap_split cfgDefault false 1000103 (by norm_num [cfgDefault])⟩

/-- C4. Claimed: the TWAP execution runs its shares sequentially, stops after
the first failing share and reports success if and only if one share
succeeded. The code contradicts this: twapSwap reads this.isRunning, a field
no statement ever assigns on the TradingEngine, so the loop body breaks before
the first share on every call; no share is ever delegated and the returned
flag is always false, whatever the amount, the split and the would-be
outcomes. -/
theorem C4_twap_loop_dead (twapParts amount : ℕ)
    (adapt : ℕ → ℕ → ℕ) (outcome : ℕ → ℕ → Bool) :
    twapSwapExec engineIsRunning twapParts amount adapt outcome = ([], false) := by
  unfold twapSwapExec engineIsRunning
  cases twapSplit twapParts amount with
  | nil => rfl
  | cons p rest => simp [twapLoop]

/-- C5. performSingleSwap tries the service at most 3 times, sleeps 2 to the
power attempt seconds between consecutive attempts (1s then 2s), returns as
soon as an attempt does not throw, and lets the third failure propagate
uncaught (result none). -/
theorem C5_single_swap_retry (oracle : ℕ → Option Bool) :
    (performSingleSwap oracle).attemptsUsed ≤ 3 ∧
    (performSingleSwap oracle).backoffsMs =
      (List.range ((performSingleSwap oracle).attemptsUsed - 1)).map (fun i => 2 ^ i * 1000) ∧
    (∀ b : Bool, oracle 0 = some b →
      performSingleSwap oracle = ⟨some b, 1, []⟩) ∧
    (∀ b : Bool, oracle 0 = none → oracle 1 = some b →
      performSingleSwap oracle = ⟨some b, 2, [1000]⟩) ∧
    (∀ b : Bool, oracle 0 = none → oracle 1 = none → oracle 2 = some b →
      performSingleSwap oracle = ⟨some b, 3, [1000, 2000]⟩) ∧
    (oracle 0 = none → oracle 1 = none → oracle 2 = none →
      performSingleSwap oracle = ⟨none, 3, [1000, 2000]⟩) := by
  rcases h0 : oracle 0 with _ | b0
  · rcases h1 : oracle 1 with _ | b1
    · rcases h2 : oracle 2 with _ | b2
      · refine ⟨?_, ?_, ?_, ?_, ?_, ?_⟩ <;>
          simp [performSingleSwap, singleSwapGo, h0, h1, h2, List.range_succ]
      · refine ⟨?_, ?_, ?_, ?_, ?_, ?_⟩ <;>
          simp [performSingleSwap, singleSwapGo, h0, h1, h2, List.range_succ]
    · refine ⟨?_, ?_, ?_, ?_, ?_, ?_⟩ <;>
        simp [performSingleSwap, singleSwapGo, h0, h1, List.range_succ]
  · refine ⟨?_, ?_, ?_, ?_, ?_, ?_⟩ <;>
      simp [performSingleSwap, singleSwapGo, h0, List.range_succ]

/-- Witness for C5 at an oracle whose first attempt throws and whose second
attempt returns a signature. -/
theorem C5_single_swap_retry_witness :
    performSingleSwap (fun n => if n = 0 then none else some true) =
      ⟨some true, 2, [1000]⟩ :=
  (C5_single_swap_retry (fun n => if n = 0 then none else some true)).2.2.2.1 true
    (by norm_num) (by norm_num)

/-- C8 counterexample. With the default band PARTIAL_SELL_MIN_PCT = 22,
PARTIAL_SELL_MAX_PCT = 68 (stored as 22/100 and 68/100), draw 0 and holdings
1000001 (at least MIN_MEME_TOKENS), the computed sell amount is 220000, which
is strictly below 22 percent of the holdings (220000.22): the claimed
inclusive lower band bound fails because of the two integer floors. -/
theorem C8_partial_sell_counterexample :
    minMemeTokens ≤ 1000001 ∧ (22 : ℚ)/100 ≤ 68/100 ∧
    partialSellAmount (22/100) (68/100) 0 1000001 = 220000 ∧
    ¬ ((22/100 : ℚ) * 1000001 ≤ ((partialSellAmount (22/100) (68/100) 0 1000001 : ℤ) : ℚ) ∧
       ((partialSellAmount (22/100) (68/100) 0 1000001 : ℤ) : ℚ) ≤ (68/100 : ℚ) * 1000001) := by
  have h1 : partialSellAmount (22/100) (68/100) 0 1000001
      = ((1000001 : ℤ) * ⌊((22:ℚ)/100 + 0 * ((68:ℚ)/100 - 22/100)) * 100⌋).tdiv 100 := rfl
  have h2 : ((22:ℚ)/100 + 0 * ((68:ℚ)/100 - 22/100)) * 100 = 22 := by norm_num
  have h3 : ⌊(22 : ℚ)⌋ = 22 := by
    rw [Int.floor_eq_iff]
    constructor
    · norm_num
    · norm_num
  have h4 : partialSellAmount (22/100) (68/100) 0 1000001 = 220000 := by
    rw [h1, h2, h3]
    decide
  refine ⟨by norm_num [minMemeTokens], by norm_num, h4, ?_⟩
  rw [h4]
  intro h
  have := h.1
  norm_num at this

/-- C8 amended. The partial-sell amount never exceeds the upper band bound
maxPct times holdings, and undershoots the lower band bound minPct times
holdings by strictly less than holdings/100 + 1 (the loss of the two integer
floors); the claimed inclusive lower bound itself does not hold. -/
theorem C8_partial_sell_amended (m M r : ℚ) (tokens : ℕ)
    (hm : 0 ≤ m) (hmM : m ≤ M) (hr0 : 0 ≤ r) (hr1 : r < 1) :
    ((partialSellAmount m M r tokens : ℤ) : ℚ) ≤ M * tokens ∧
    m * tokens - (tokens : ℚ) / 100 - 1 < ((partialSellAmount m M r tokens : ℤ) : ℚ) := by
  have hpm : m ≤ m + r * (M - m) := le_add_of_nonneg_right (mul_nonneg hr0 (by linarith))
  have hpM : m + r * (M - m) ≤ M := by
    have h1 : r * (M - m) ≤ M - m := mul_le_of_le_one_left (by linarith) (le_of_lt hr1)
    linarith
  have hpct0 : 0 ≤ m + r * (M - m) := le_trans hm hpm
  have hk0 : (0 : ℤ) ≤ ⌊(m + r * (M - m)) * 100⌋ := Int.floor_nonneg.mpr (by positivity)
  have hkle : ((⌊(m + r * (M - m)) * 100⌋ : ℤ) : ℚ) ≤ (m + r * (M - m)) * 100 :=
    Int.floor_le _
  have hkgt : (m + r * (M - m)) * 100 - 1 < ((⌊(m + r * (M - m)) * 100⌋ : ℤ) : ℚ) :=
    Int.sub_one_lt_floor _
  have ha0 : (0 : ℤ) ≤ (tokens : ℤ) * ⌊(m + r * (M - m)) * 100⌋ :=
    mul_nonneg (Int.ofNat_nonneg tokens) hk0
  have hform : partialSellAmount m M r tokens
      = ((tokens : ℤ) * ⌊(m + r * (M - m)) * 100⌋).tdiv 100 := rfl
  have hfloor : partialSellAmount m M r tokens
      = ⌊(((tokens : ℤ) * ⌊(m + r * (M - m)) * 100⌋ : ℤ) : ℚ) / 100⌋ := by
    rw [hform, Int.tdiv_eq_ediv ha0 (by norm_num)]
    rw [show (100 : ℤ) = ((100 : ℕ) : ℤ) from by norm_num]
    rw [← Rat.floor_intCast_div_natCast ((tokens : ℤ) * ⌊(m + r * (M - m)) * 100⌋) 100]
    norm_num
  have hfl_le : (((partialSellAmount m M r tokens : ℤ)) : ℚ)
      ≤ (((tokens : ℤ) * ⌊(m + r * (M - m)) * 100⌋ : ℤ) : ℚ) / 100 := by
    rw [hfloor]
    exact Int.floor_le _
  have hfl_gt : (((tokens : ℤ) * ⌊(m + r * (M - m)) * 100⌋ : ℤ) : ℚ) / 100 - 1
      < (((partialSellAmount m M r tokens : ℤ)) : ℚ) := by
    rw [hfloor]
    exact Int.sub_one_lt_floor _
  have hcast : (((tokens : ℤ) * ⌊(m + r * (M - m)) * 100⌋ : ℤ) : ℚ)
      = (tokens : ℚ) * ((⌊(m + r * (M - m)) * 100⌋ : ℤ) : ℚ) := by
    push_cast
    ring
  have htok0 : (0 : ℚ) ≤ (tokens : ℚ) := Nat.cast_nonneg tokens
  have hmulle : (tokens : ℚ) * ((⌊(m + r * (M - m)) * 100⌋ : ℤ) : ℚ)
      ≤ (tokens : ℚ) * ((m + r * (M - m)) * 100) :=
    mul_le_mul_of_nonneg_left hkle htok0
  have hmulge : (tokens : ℚ) * ((m + r * (M - m)) * 100 - 1)
      ≤ (tokens : ℚ) * ((⌊(m + r * (M - m)) * 100⌋ : ℤ) : ℚ) :=
    mul_le_mul_of_nonneg_left (le_of_lt hkgt) htok0
  have hband_hi : (tokens : ℚ) * ((m + r * (M - m)) * 100) ≤ (tokens : ℚ) * (M * 100) :=
    mul_le_mul_of_nonneg_left (by linarith) htok0
  have hband_lo : (tokens : ℚ) * (m * 100 - 1) ≤ (tokens : ℚ) * ((m + r * (M - m)) * 100 - 1) :=
    mul_le_mul_of_nonneg_left (by linarith) htok0
  constructor
  · rw [hcast] at hfl_le
    nlinarith [hfl_le, hmulle, hband_hi]
  · rw [hcast] at hfl_gt
    nlinarith [hfl_gt, hmulge, hband_lo]

/-- Witness for C8 amended: default band 22/100 to 68/100, draw 1/2, holdings
1000001. -/
theorem C8_partial_sell_amended_witness :
    (0 : ℚ) ≤ 22/100 ∧ (22 : ℚ)/100 ≤ 68/100 ∧ (0 : ℚ) ≤ 1/2 ∧ (1 : ℚ)/2 < 1 ∧
    (((partialSellAmount (22/100) (68/100) (1/2) 1000001 : ℤ) : ℚ) ≤ (68 : ℚ)/100 * 1000001 ∧
      (22 : ℚ)/100 * 1000001 - (1000001 : ℚ) / 100 - 1
        < ((partialSellAmount (22/100) (68/100) (1/2) 1000001 : ℤ) : ℚ)) :=
  ⟨by norm_num, by norm_num, by norm_num, by norm_num,
    C8_partial_sell_amended (22/100) (68/100) (1/2) 1000001
      (by norm_num) (by norm_num) (by norm_num) (by norm_num)⟩

/-- C9. Claimed: a swap in orchestrator cycle i is scaled by
min(1, (i+1)/rampCycles), so size ramps up to full after rampCycles cycles.
The code contradicts this: the run loop increments only the bot counter, the
TradingEngine counter stays 0 forever, so with RAMP_CYCLES = 30 the scale is
stuck at floor(100/30)/100 = 3 percent of the adjusted amount in every cycle;
in cycle index 29 an adjusted amount of 3000 yields 90, not the 3000 the
claimed full-size ramp gives. -/
theorem C9_ramp_frozen :
    (∀ n : ℕ, (runLoopCountStep^[n] orchCountersInit).engineCycleCount = 0) ∧
    (∀ n : ℕ, (runLoopCountStep^[n] orchCountersInit).botCycleCount = n) ∧
    rampFinalAmount cfgDefault.rampCycles
      ((runLoopCountStep^[29] orchCountersInit).engineCycleCount) 3000 = 90 ∧
    (3000 : ℚ) * min 1 (((29 : ℚ) + 1) / cfgDefault.rampCycles) = 3000 := by
  have hengine : ∀ n : ℕ, (runLoopCountStep^[n] orchCountersInit).engineCycleCount = 0 := by
    intro n
    induction n with
    | zero => rfl
    | succ k ih => rw [Function.iterate_succ_apply', runLoopCountStep, ih]
  have hbot : ∀ n : ℕ, (runLoopCountStep^[n] orchCountersInit).botCycleCount = n := by
    intro n
    induction n with
    | zero => rfl
    | succ k ih =>
      rw [Function.iterate_succ_apply', runLoopCountStep]
      simp [ih]
  refine ⟨hengine, hbot, ?_, by norm_num [cfgDefault]⟩
  rw [hengine 29]
  have hfl : ⌊(1 : ℚ)/30 * 100⌋ = 3 := by
    rw [Int.floor_eq_iff]
    constructor
    · norm_num
    · norm_num
  unfold rampFinalAmount
  dsimp only
  have hmin : min (1 : ℚ) ((((0 : ℕ) : ℚ) + 1) / cfgDefault.rampCycles) = 1/30 := by
    norm_num [cfgDefault]
  rw [hmin, hfl]
  decide

/-- C10. A hodler buy that passed the market-condition check and whose
Math.random() draw is below 0.3 returns success without routing anything to
the execution path, independently of what that path would have produced, and
that reported success is recorded in the breaker window as a success (it
becomes the newest window entry and resets consecutiveFailures); a draw at or
above 0.3 routes the amount normally, so the skip happens with probability
0.3 of the uniform draw. -/
theorem C10_hodler_skip (cfg : Config) (cb : CircuitBreaker)
    (hodlerDraw : ℚ) (finalAmount : ℕ) (execOutcome : SwapDecision → Bool)
    (hdraw : hodlerDraw < 3/10) (henable : cfg.enableCircuitBreaker = true)
    (hwin : 1 ≤ cfg.failureRateWindow) :
    performSwapAfterChecks cfg "hodler" true hodlerDraw finalAmount = SwapDecision.holdSkip ∧
    performSwapResult cfg "hodler" true hodlerDraw finalAmount execOutcome = true ∧
    (∀ r : ℚ, 3/10 ≤ r →
      performSwapAfterChecks cfg "hodler" true r finalAmount =
        performSwapDispatch cfg true finalAmount) ∧
    (recordTradeResult cfg cb true).consecutiveFailures = 0 ∧
    (recordTradeResult cfg cb true).recentTrades.getLast? = some true := by
  have hskip : performSwapAfterChecks cfg "hodler" true hodlerDraw finalAmount
      = SwapDecision.holdSkip := by
    unfold performSwapAfterChecks
    rw [if_pos ⟨rfl, rfl, hdraw⟩]
  refine ⟨hskip, ?_, ?_, by simp [recordTradeResult, henable], ?_⟩
  · unfold performSwapResult
    rw [hskip]
  · intro r hr
    unfold performSwapAfterChecks
    rw [if_neg]
    intro hcon
    exact absurd hcon.2.2 (not_lt.mpr hr)
  · rw [recordTradeResult_recentTrades cfg cb true henable]
    by_cases hover : cfg.failureRateWindow < cb.recentTrades.length + 1
    · rw [if_pos hover]
      have hne : cb.recentTrades ≠ [] := by
        intro hnil
        rw [hnil] at hover
        simp at hover
        omega
      rw [List.tail_append_of_ne_nil hne]
      exact List.getLast?_concat _
    · rw [if_neg hover]
      exact List.getLast?_concat _

/-- Witness for C10: default configuration, constructor breaker state, draw
1/5, amount 0, an execution path that would fail. -/
theorem C10_hodler_skip_witness :
    (1 : ℚ)/5 < 3/10 ∧ cfgDefault.enableCircuitBreaker = true ∧
    1 ≤ cfgDefault.failureRateWindow ∧
    (performSwapAfterChecks cfgDefault "hodler" true (1/5) 0 = SwapDecision.holdSkip ∧
      performSwapResult cfgDefault "hodler" true (1/5) 0 (fun _ => false) = true ∧
      (∀ r : ℚ, 3/10 ≤ r →
        performSwapAfterChecks cfgDefault "hodler" true r 0 =
          performSwapDispatch cfgDefault true 0) ∧
      (recordTradeResult cfgDefault CircuitBreaker.start true).consecutiveFailures = 0 ∧
      (recordTradeResult cfgDefault CircuitBreaker.start true).recentTrades.getLast?
        = some true) :=
  ⟨by norm_num, rfl, by norm_num [cfgDefault],
    C10_hodler_skip cfgDefault CircuitBreaker.start (1/5) 0 (fun _ => false)
      (by norm_num) rfl (by norm_num [cfgDefault])⟩

/-- A Fisher-Yates swap only rearranges positions: membership is preserved. -/
theorem mem_listSwap {α : Type} (l : List α) (i j : ℕ) (x : α)
    (hx : x ∈ listSwap l i j) : x ∈ l := by
  unfold listSwap at hx
  cases hi : l.get? i with
  | none =>
    rw [hi] at hx
    exact hx
  | some a =>
    cases hj : l.get? j with
    | none =>
      rw [hi, hj] at hx
      exact hx
    | some b =>
      rw [hi, hj] at hx
      have hx2 : x ∈ (l.set i b).set j a := hx
      rcases List.mem_or_eq_of_mem_set hx2 with h1 | h1
      · rcases List.mem_or_eq_of_mem_set h1 with h2 | h2
        · exact h2
        · rw [h2]
          exact List.get?_mem hj
      · rw [h1]
        exact List.get?_mem hi

/-- The shuffle loop preserves membership. -/
theorem mem_shuffleGo {α : Type} (draws : ℕ → ℕ) (x : α) (n : ℕ) :
    ∀ l : List α, x ∈ shuffleGo draws l n → x ∈ l := by
  induction n with
  | zero => intro l h; exact h
  | succ k ih =>
    intro l h
    rw [shuffleGo] at h
    exact mem_listSwap _ _ _ _ (ih _ h)

/-- shuffleArray preserves membership. -/
theorem mem_shuffleArray {α : Type} (draws : ℕ → ℕ) (l : List α) (x : α)
    (hx : x ∈ shuffleArray draws l) : x ∈ l :=
  mem_shuffleGo draws x (l.length - 1) l hx

/-- C6. Every wallet of the selected active batch, at selection time now,
satisfies now - lastActionTimestamp at least its cooldown, where the cooldown
is the floor of base times 1 + (tradeCount mod 5) * 0.2 for the base the
uniform draw of that wallet places in [minWalletCooldownMs, maxWalletCooldownMs];
and the selected batch holds at most batchSize wallets. -/
theorem C6_batch_selection (cfg : Config) (now : ℤ) (capCounts : Bool)
    (cooldownDraw : String → ℚ) (shuffleDraws : ℕ → ℕ) (s : WMState)
    (hdraw : ∀ k : String, 0 ≤ cooldownDraw k ∧ cooldownDraw k < 1)
    (hrange : cfg.minWalletCooldownMs ≤ cfg.maxWalletCooldownMs) :
    (loadActiveBatch cfg now capCounts cooldownDraw shuffleDraws s).2.length ≤ cfg.batchSize ∧
    (∀ rand : ℚ, ∀ k : String,
      getWalletCooldown cfg (cleanupOldCooldowns now capCounts s) rand k =
        ⌊(cfg.minWalletCooldownMs + rand * (cfg.maxWalletCooldownMs - cfg.minWalletCooldownMs))
          * (1 + ((((cleanupOldCooldowns now capCounts s).walletTradeCount.lookup k).getD 0
              % 5 : ℕ) : ℚ) * (2/10))⌋) ∧
    ∀ w ∈ (loadActiveBatch cfg now capCounts cooldownDraw shuffleDraws s).2,
      (cfg.minWalletCooldownMs
          ≤ cfg.minWalletCooldownMs + cooldownDraw w.pubkey
            * (cfg.maxWalletCooldownMs - cfg.minWalletCooldownMs) ∧
        cfg.minWalletCooldownMs + cooldownDraw w.pubkey
            * (cfg.maxWalletCooldownMs - cfg.minWalletCooldownMs)
          ≤ cfg.maxWalletCooldownMs) ∧
      getWalletCooldown cfg (cleanupOldCooldowns now capCounts s) (cooldownDraw w.pubkey)
          w.pubkey
        ≤ now - (((cleanupOldCooldowns now capCounts s).walletCooldowns.lookup
            w.pubkey).getD 0) := by
  refine ⟨?_, fun rand k => rfl, ?_⟩
  · unfold loadActiveBatch
    dsimp only
    split
    · simp
    · dsimp only
      rw [List.length_take]
      exact min_le_left _ _
  · intro w hw
    have hr := hdraw w.pubkey
    refine ⟨⟨le_add_of_nonneg_right (mul_nonneg hr.1 (by linarith)), ?_⟩, ?_⟩
    · have h1 : cooldownDraw w.pubkey * (cfg.maxWalletCooldownMs - cfg.minWalletCooldownMs)
          ≤ cfg.maxWalletCooldownMs - cfg.minWalletCooldownMs :=
        mul_le_of_le_one_left (by linarith) (le_of_lt hr.2)
      linarith
    · unfold loadActiveBatch at hw
      dsimp only at hw
      split at hw
      · simp at hw
      · dsimp only at hw
        have hmem := List.mem_of_mem_take hw
        have hready : w ∈ (cleanupOldCooldowns now capCounts s).walletData.filter (fun v =>
            decide (getWalletCooldown cfg (cleanupOldCooldowns now capCounts s)
              (cooldownDraw v.pubkey) v.pubkey
              ≤ now - (((cleanupOldCooldowns now capCounts s).walletCooldowns.lookup
                  v.pubkey).getD 0))) := by
          by_cases hsh : cfg.shuffleWallets = true
          · rw [if_pos hsh] at hmem
            exact mem_shuffleArray _ _ _ hmem
          · rw [if_neg hsh] at hmem
            exact hmem
        have hpw := (List.mem_filter.mp hready).2
        exact of_decide_eq_true hpw

/-- Witness for C6: wallet w1 acted at time 0, selection happens at
now = 1000000000 (past the cooldown retention age), the draw is constantly 0. -/
theorem C6_batch_selection_witness :
    (∀ k : String, (0 : ℚ) ≤ (fun (_ : String) => (0 : ℚ)) k ∧
      (fun (_ : String) => (0 : ℚ)) k < 1) ∧
    cfgStale.minWalletCooldownMs ≤ cfgStale.maxWalletCooldownMs ∧
    ((loadActiveBatch cfgStale 1000000000 false (fun _ => 0) (fun _ => 0)
        stateStale).2.length ≤ cfgStale.batchSize ∧
      (∀ rand : ℚ, ∀ k : String,
        getWalletCooldown cfgStale (cleanupOldCooldowns 1000000000 false stateStale) rand k =
          ⌊(cfgStale.minWalletCooldownMs + rand
              * (cfgStale.maxWalletCooldownMs - cfgStale.minWalletCooldownMs))
            * (1 + ((((cleanupOldCooldowns 1000000000 false
                stateStale).walletTradeCount.lookup k).getD 0 % 5 : ℕ) : ℚ) * (2/10))⌋) ∧
      ∀ w ∈ (loadActiveBatch cfgStale 1000000000 false (fun _ => 0) (fun _ => 0)
          stateStale).2,
        (cfgStale.minWalletCooldownMs
            ≤ cfgStale.minWalletCooldownMs + (fun (_ : String) => (0 : ℚ)) w.pubkey
              * (cfgStale.maxWalletCooldownMs - cfgStale.minWalletCooldownMs) ∧
          cfgStale.minWalletCooldownMs + (fun (_ : String) => (0 : ℚ)) w.pubkey
              * (cfgStale.maxWalletCooldownMs - cfgStale.minWalletCooldownMs)
            ≤ cfgStale.maxWalletCooldownMs) ∧
        getWalletCooldown cfgStale (cleanupOldCooldowns 1000000000 false stateStale)
            ((fun (_ : String) => (0 : ℚ)) w.pubkey) w.pubkey
          ≤ 1000000000 - (((cleanupOldCooldowns 1000000000 false
              stateStale).walletCooldowns.lookup w.pubkey).getD 0)) :=
  ⟨fun k => ⟨le_refl 0, by norm_num⟩, by norm_num [cfgStale],
    C6_batch_selection cfgStale 1000000000 false (fun _ => 0) (fun _ => 0) stateStale
      (fun k => ⟨le_refl 0, by norm_num⟩) (by norm_num [cfgStale])⟩

/-- C7. Claimed: when no wallet is eligible the orchestrator processes no
wallet that cycle and backs off. The code contradicts this once a previous
batch exists: loadActiveBatch returns the empty list without assigning
activeWallets, and runLoop discards that return value and reads the stale
activeWallets field, so it reprocesses the previous batch [w1] although w1 is
still cooling down (last action at time 0, now = 1000, cooldown 300000 ms). -/
theorem C7_stale_batch :
    (loadActiveBatch cfgStale 1000 false (fun _ => 0) (fun _ => 0) stateStale).2 = [] ∧
    (runLoopBatchStep cfgStale 1000 false (fun _ => 0) (fun _ => 0) stateStale).2 =
      CycleAction.processBatch [walletW1] := by
  have hclean : cleanupOldCooldowns 1000 false stateStale = stateStale := by
    unfold cleanupOldCooldowns
    simp [stateStale, maxCooldownAgeMs]
  have hcd : getWalletCooldown cfgStale stateStale 0 "w1" = 300000 := by
    unfold getWalletCooldown
    dsimp only
    have hlk : (stateStale.walletTradeCount.lookup "w1").getD 0 = 0 := rfl
    rw [hlk]
    have harg : (cfgStale.minWalletCooldownMs + 0
          * (cfgStale.maxWalletCooldownMs - cfgStale.minWalletCooldownMs))
        * (1 + (((0 % 5 : ℕ)) : ℚ) * (2/10)) = ((300000 : ℤ) : ℚ) := by
      norm_num [cfgStale]
    rw [harg, Int.floor_intCast]
  have hpred : decide (getWalletCooldown cfgStale stateStale
      ((fun (_ : String) => (0 : ℚ)) walletW1.pubkey) walletW1.pubkey
      ≤ 1000 - ((stateStale.walletCooldowns.lookup walletW1.pubkey).getD 0)) = false := by
    have hkey : walletW1.pubkey = "w1" := rfl
    rw [hkey]
    rw [show ((fun (_ : String) => (0 : ℚ)) "w1") = (0 : ℚ) from rfl]
    rw [hcd]
    decide
  have hready : loadActiveBatch cfgStale 1000 false (fun _ => 0) (fun _ => 0) stateStale
      = (stateStale, []) := by
    unfold loadActiveBatch
    dsimp only
    rw [hclean]
    rw [show stateStale.walletData = [walletW1] from rfl]
    rw [List.filter_cons, List.filter_nil]
    rw [hpred]
    simp
  refine ⟨by rw [hready], ?_⟩
  unfold runLoopBatchStep
  dsimp only
  rw [hready]
  rw [show stateStale.activeWallets = [walletW1] from rfl]
  simp

end Sovo
